import Mathlib

/-!
Verification of the Phoenix Arena core engine (arena.js): the Agent prompt
composition, the Battle turn-scheduling state machine, and its message
construction.  JavaScript values are embedded shallowly: absent-or-falsy
optional fields become `Option` (`none` models `null`/`undefined`/falsy),
machine timestamps become `Nat` parameters, asynchronous provider calls
become an explicit oracle function, and `setTimeout` scheduling becomes an
explicit `scheduled` component in the step result.  External side effects
(console logging, SQLite writes, WebSocket sends, file I/O) are modelled by
the returned event list or dropped where they do not touch engine state.
-/

namespace PhoenixArena

/-- Chat roles as used by `buildMessages`: `user` renders another speaker's
turn, `assistant` renders the addressed agent's own turns. -/
inductive Role
  | user
  | assistant
deriving DecidableEq, Repr

/-- One entry of the message list handed to a Provider. -/
structure Msg where
  role : Role
  content : String
deriving DecidableEq, Repr

/-- Payload of a `knowledgeGraph.concepts` entry (a name and a definition,
either field possibly absent/falsy). -/
structure ConceptData where
  name : Option String
  definition : Option String
deriving DecidableEq, Repr

/-- One `[key, data]` pair of the knowledge collection; `data` may be null. -/
structure KEntry where
  key : String
  data : Option ConceptData
deriving DecidableEq, Repr

/-- Summary object pushed by `Battle.complete` via `addMemory`. -/
structure BattleSummary where
  battleId : Nat
  prompt : Option String
  turns : Nat
  participants : List String
  timestamp : Nat
deriving DecidableEq, Repr

/-- A memory value is either a plain string or the battle-summary object. -/
inductive MemValue
  | str : String → MemValue
  | obj : BattleSummary → MemValue
deriving DecidableEq, Repr

/-- JS template-literal rendering of a memory value: objects print as
"[object Object]". -/
def MemValue.render : MemValue → String
  | .str s => s
  | .obj _ => "[object Object]"

/-- One episodic memory: `{key, value, timestamp}`. -/
structure Memory where
  key : String
  value : MemValue
  timestamp : Nat
deriving DecidableEq, Repr

/-- The `brain.stats` counters; `totalConversations` may be absent (rendered as 0). -/
structure Stats where
  totalConversations : Option Nat
deriving DecidableEq, Repr

/-- The Brain document: fallback persona, knowledge entries
(`knowledgeGraph.concepts`), episodic memories, counters. -/
structure Brain where
  soul : Option String
  concepts : Option (List KEntry)
  conversationMemories : Option (List Memory)
  stats : Option Stats
deriving DecidableEq, Repr

/-- The Agent state: identity, persona, directive, brain. The bound
Provider itself is supplied externally as an oracle where needed. -/
structure Agent where
  name : String
  displayName : String
  brainPath : Option String
  brain : Option Brain
  soul : Option String
  prompt : Option String
  model : String
  anonymous : Bool
deriving DecidableEq, Repr

instance : Inhabited Agent :=
  ⟨⟨"Agent", "Agent", none, none, none, none, "claude-sonnet-4-20250514", false⟩⟩

/-- One knowledge line: rendered only when `data` and `data.definition` are
present; the label is `data.name || key`. -/
def renderConcept (e : KEntry) : String :=
  match e.data with
  | some d =>
    match d.definition with
    | some defn => "- " ++ (d.name.getD e.key) ++ ": " ++ defn ++ "\n"
    | none => ""
  | none => ""

/-- The knowledge section of `buildSystemPrompt`: at most the first 30
entries (`concepts.slice(0, 30)`), omitted when the collection is absent or
empty. -/
def knowledgeSection (concepts : Option (List KEntry)) : String :=
  match concepts with
  | some cs =>
    if 0 < cs.length then
      "## Your Knowledge\n" ++ String.join ((cs.take 30).map renderConcept) ++ "\n"
    else ""
  | none => ""

/-- One memory line of the prompt. -/
def renderMemory (m : Memory) : String :=
  "- " ++ m.key ++ ": " ++ m.value.render ++ "\n"

/-- The memory section: the most recent 10 memories
(`conversationMemories.slice(-10)`), omitted when absent or empty. -/
def memorySection (mems : Option (List Memory)) : String :=
  match mems with
  | some ms =>
    if 0 < ms.length then
      "## Recent Memories\n" ++ String.join ((ms.drop (ms.length - 10)).map renderMemory)
    else ""
  | none => ""

/-- The stats line, present whenever `brain.stats` is truthy. -/
def statsSection (stats : Option Stats) : String :=
  match stats with
  | some st =>
    "\nYou have had " ++ toString (st.totalConversations.getD 0) ++ " conversations.\n"
  | none => ""

/-- The brain-derived part of the system prompt: the brain soul is used only
when no agent-level soul was supplied. -/
def brainSection (agentSoul : Option String) (b : Brain) : String :=
  (match b.soul, agentSoul with
   | some s, none => s ++ "\n\n"
   | _, _ => "") ++
  knowledgeSection b.concepts ++
  memorySection b.conversationMemories ++
  statsSection b.stats

/-- Source `Agent.buildSystemPrompt`: identity line unless anonymous, then soul,
then brain sections; returns `none` when the concatenation is empty
(`return prompt || null`). -/
def Agent.buildSystemPrompt (a : Agent) : Option String :=
  let p :=
    (if a.anonymous then "" else "You are " ++ a.name ++ ".\n\n") ++
    (match a.soul with
     | some s => s ++ "\n\n"
     | none => "") ++
    (match a.brain with
     | some b => brainSection a.soul b
     | none => "")
  if p = "" then none else some p

/-- Source `Agent.addMemory(key, value)`: creates the brain document and the
memory list when absent, then appends a timestamped entry. -/
def Agent.addMemory (a : Agent) (key : String) (value : MemValue) (now : Nat) : Agent :=
  let b : Brain :=
    match a.brain with
    | none => ⟨none, none, some [], none⟩
    | some b =>
      match b.conversationMemories with
      | none => { b with conversationMemories := some [] }
      | some _ => b
  { a with
    brain := some
      { b with
        conversationMemories :=
          some (b.conversationMemories.getD [] ++ [⟨key, value, now⟩]) } }

/-- Source `Agent.loadBrain`: keep an already-loaded brain; otherwise read the
brain path through the disk oracle, any read/parse failure yielding
`none` (blank brain). -/
def Agent.loadBrain (a : Agent) (disk : String → Option Brain) : Agent :=
  match a.brain with
  | some _ => a
  | none =>
    match a.brainPath with
    | none => a
    | some p => { a with brain := disk p }

/-- Battle statuses; the constructor sets `pending`. -/
inductive Status
  | pending
  | running
  | paused
  | complete
deriving DecidableEq, Repr

/-- One immutable transcript record, as pushed by `runTurn`. -/
structure Turn where
  turn : Nat
  speakerIndex : Nat
  speaker : String
  model : String
  content : String
  timestamp : Nat
deriving DecidableEq, Repr

/-- Broadcast events (the payloads the engine hands to `this.broadcast`). -/
inductive Event
  | battleStart (battleId : Nat) (agents : List (String × String)) (prompt : Option String)
  | turnEv (battleId : Nat) (t : Turn)
  | pausedEv (battleId : Nat)
  | resumedEv (battleId : Nat)
  | completeEv (battleId : Nat) (turns : Nat) (duration : Nat)
  | errorEv (battleId : Nat) (error : String)
deriving DecidableEq, Repr

/-- The Battle state (the mutable fields of the `Battle` class). -/
structure Battle where
  id : Nat
  agents : List Agent
  prompt : Option String
  useIndividualPrompts : Bool
  anonymousMode : Bool
  maxTurns : Nat
  turnDelay : Nat
  maxWords : Option Nat
  history : List Turn
  turn : Nat
  currentSpeaker : Nat
  status : Status
  startTime : Option Nat
  endTime : Option Nat
deriving DecidableEq, Repr

/-- Constructor config; `Option` fields model absent-or-falsy JS values. -/
structure BattleConfig where
  id : Option Nat
  agents : List Agent
  prompt : Option String
  useIndividualPrompts : Bool
  anonymousMode : Bool
  maxTurns : Option Nat
  turnDelay : Option Nat
  maxWords : Option Nat
deriving Repr

/-- JS `config.x || d` on a numeric field: absent or zero falls back to `d`. -/
def orDefaultNat (v : Option Nat) (d : Nat) : Nat :=
  match v with
  | some n => if n = 0 then d else n
  | none => d

/-- JS `config.x || null` on a numeric field: absent or zero becomes null. -/
def orNullNat (v : Option Nat) : Option Nat :=
  match v with
  | some n => if n = 0 then none else some n
  | none => none

/-- The `Battle` constructor; `now` stands for `Date.now()` used as the
default id. -/
def mkBattle (c : BattleConfig) (now : Nat) : Battle :=
  { id := orDefaultNat c.id now
    agents := c.agents
    prompt := c.prompt
    useIndividualPrompts := c.useIndividualPrompts
    anonymousMode := c.anonymousMode
    maxTurns := orDefaultNat c.maxTurns 20
    turnDelay := orDefaultNat c.turnDelay 3000
    maxWords := orNullNat c.maxWords
    history := []
    turn := 0
    currentSpeaker := 0
    status := .pending
    startTime := none
    endTime := none }

/-- The result of one synchronous engine entry point: the new battle state,
the broadcast events emitted, how many Provider calls were made, and the
input of the `setTimeout`-scheduled next `runTurn`, if any. -/
structure StepResult where
  battle : Battle
  events : List Event
  providerCalls : Nat
  scheduled : Option String
deriving Repr

/-- A Provider oracle: `chat(messages, systemPrompt)` returning response
text or a failure message. -/
abbrev Oracle := List Msg → Option String → Except String String

/-- Source battle initialization (the class method named after init): load each agent brain (the pending DB row insert is
an external effect without engine state). -/
def Battle.initializeAgents (b : Battle) (disk : String → Option Brain) : Battle :=
  { b with agents := b.agents.map (fun a => a.loadBrain disk) }

/-- The word-limit tag `buildMessages` prepends when `maxWords` is set. -/
def wordLimitTag (w : Nat) : String :=
  "[" ++ toString w ++ " words max.] "

/-- Rendering of one transcript entry from the addressed agent's point of
view: own turns get the assistant role, all others the user role. -/
def renderEntry (speakerIndex : Nat) (e : Turn) : Msg :=
  ⟨if e.speakerIndex = speakerIndex then .assistant else .user, e.content⟩

/-- The first-turn preamble of `buildMessages`: empty once the agent has a
transcript entry; otherwise the shared prompt as context plus the agent's
directive (unlabelled in anonymous mode). -/
def firstTurnPreamble (b : Battle) (speakerIndex : Nat) : String :=
  if b.history.any (fun e => e.speakerIndex = speakerIndex) then ""
  else
    (match b.prompt with
     | some p => "[Context: " ++ p ++ "]\n\n"
     | none => "") ++
    (match (b.agents.getD speakerIndex default).prompt with
     | some ap =>
       if b.anonymousMode then ap ++ "\n\n"
       else "[Your directive: " ++ ap ++ "]\n\n"
     | none => "")

/-- Source `Battle.buildMessages(speakerIndex, lastMessage)`: the per-agent view of
the transcript followed, when the last-message content is non-empty, by one
user-role message carrying the preamble, the word-limit tag, and the
input. -/
def Battle.buildMessages (b : Battle) (speakerIndex : Nat) (lastMessage : String) : List Msg :=
  let histMsgs := b.history.map (renderEntry speakerIndex)
  let lastContent :=
    match b.maxWords with
    | some w => if lastMessage ≠ "" then wordLimitTag w ++ lastMessage else lastMessage
    | none => lastMessage
  if lastContent ≠ "" then
    histMsgs ++ [⟨.user, firstTurnPreamble b speakerIndex ++ lastContent⟩]
  else histMsgs

/-- Source `Battle.complete`: set terminal status and end time, give every agent
one summary memory, emit the `complete` event (brain persistence is a
best-effort external write). -/
def Battle.complete (b : Battle) (now : Nat) : Battle × List Event :=
  let summary : MemValue := .obj ⟨b.id, b.prompt, b.turn, b.agents.map (fun a => a.name), now⟩
  ({ b with
      status := .complete
      endTime := some now
      agents := b.agents.map (fun a => a.addMemory "arena_battle" summary now) },
   [.completeEv b.id b.turn (now - b.startTime.getD 0)])

/-- The turn record `runTurn` builds from the current speaker's response. -/
def Battle.turnRecord (b : Battle) (response : String) (now : Nat) : Turn :=
  ⟨b.turn, b.currentSpeaker, (b.agents.getD b.currentSpeaker default).name,
    (b.agents.getD b.currentSpeaker default).model, response, now⟩

/-- The accepted-turn update inside `runTurn`: push the turn record,
increment the counter, advance the speaker index modulo the agent count. -/
def Battle.recordTurn (b : Battle) (response : String) (now : Nat) : Battle :=
  { b with
    history := b.history ++ [b.turnRecord response now]
    turn := b.turn + 1
    currentSpeaker := (b.currentSpeaker + 1) % b.agents.length }

/-- Source `Battle.runTurn(input)`: no-op unless running; completes when the turn
counter has reached the max; otherwise one Provider call through the
oracle — on failure only an `error` event, on success the accepted-turn
update, the `turn` event, and either the scheduled next input or
completion. -/
def Battle.runTurn (b : Battle) (oracle : Oracle) (now : Nat) (input : String) : StepResult :=
  if b.status ≠ .running then ⟨b, [], 0, none⟩
  else if b.maxTurns ≤ b.turn then
    ⟨(b.complete now).1, (b.complete now).2, 0, none⟩
  else
    match oracle (b.buildMessages b.currentSpeaker input)
        (b.agents.getD b.currentSpeaker default).buildSystemPrompt with
    | .error msg => ⟨b, [.errorEv b.id msg], 1, none⟩
    | .ok response =>
      if (b.recordTurn response now).turn < (b.recordTurn response now).maxTurns ∧
          (b.recordTurn response now).status = .running then
        ⟨b.recordTurn response now, [.turnEv b.id (b.turnRecord response now)], 1, some response⟩
      else if (b.recordTurn response now).maxTurns ≤ (b.recordTurn response now).turn then
        ⟨((b.recordTurn response now).complete now).1,
          .turnEv b.id (b.turnRecord response now) :: ((b.recordTurn response now).complete now).2,
          1, none⟩
      else
        ⟨b.recordTurn response now, [.turnEv b.id (b.turnRecord response now)], 1, none⟩

/-- The base of the opening message: `agent0.prompt || this.prompt ||
'Begin.'`. -/
def Battle.openingBase (b : Battle) : String :=
  match (b.agents.getD 0 default).prompt with
  | some p => p
  | none =>
    match b.prompt with
    | some p => p
    | none => "Begin."

/-- The opening message `start` hands to the turn loop: the base alone in
anonymous mode, otherwise with the other participants disclosed. -/
def Battle.openingMessage (b : Battle) : String :=
  if b.anonymousMode then b.openingBase
  else
    b.openingBase ++ "\n\nYou are starting. Other participant(s): " ++
      String.intercalate ", " ((b.agents.drop 1).map (fun a => a.name))

/-- The `battle_start` event payload (agent display names and models). -/
def Battle.startEvent (b : Battle) : Event :=
  .battleStart b.id
    (b.agents.map (fun a => (if a.displayName = "" then a.name else a.displayName, a.model)))
    b.prompt

/-- The state `start` establishes before running the first turn. -/
def Battle.startingState (b : Battle) (now : Nat) : Battle :=
  { b with status := .running, startTime := some now }

/-- Source `Battle.start`: set running status and start time, emit `battle_start`,
then run the first turn on the opening message. -/
def Battle.start (b : Battle) (oracle : Oracle) (now : Nat) : StepResult :=
  ⟨((b.startingState now).runTurn oracle now (b.startingState now).openingMessage).battle,
    b.startEvent ::
      ((b.startingState now).runTurn oracle now (b.startingState now).openingMessage).events,
    ((b.startingState now).runTurn oracle now (b.startingState now).openingMessage).providerCalls,
    ((b.startingState now).runTurn oracle now (b.startingState now).openingMessage).scheduled⟩

/-- Source `Battle.pause`: unconditionally sets `paused` and emits the event — the
source has no status guard here. -/
def Battle.pause (b : Battle) : Battle × List Event :=
  ({ b with status := .paused }, [.pausedEv b.id])

/-- The result of `resume`: new state, events, and the input scheduled for
the next `runTurn`, if any. -/
structure ResumeResult where
  battle : Battle
  events : List Event
  scheduled : Option String
deriving Repr

/-- Source `Battle.resume`: no-op unless paused; otherwise sets running, emits
`resumed`, and schedules `runTurn` on the last transcript entry's content
when the transcript is non-empty. -/
def Battle.resume (b : Battle) : ResumeResult :=
  if b.status ≠ .paused then ⟨b, [], none⟩
  else
    ⟨{ b with status := .running }, [.resumedEv b.id],
      (b.history.getLast?).map (fun e => e.content)⟩

/-- One engine call, with all external inputs (disk contents, oracle,
clock, input text) chosen arbitrarily. -/
inductive Step : Battle → Battle → Prop
  | initStep (b : Battle) (disk : String → Option Brain) :
      Step b (b.initializeAgents disk)
  | startStep (b : Battle) (oracle : Oracle) (now : Nat) :
      Step b ((b.start oracle now).battle)
  | runStep (b : Battle) (oracle : Oracle) (now : Nat) (input : String) :
      Step b ((b.runTurn oracle now input).battle)
  | pauseStep (b : Battle) :
      Step b (b.pause).1
  | resumeStep (b : Battle) :
      Step b (b.resume).battle
  | completeStep (b : Battle) (now : Nat) :
      Step b ((b.complete now)).1

/-- States reachable from a freshly constructed battle by engine calls. -/
def Reachable (c : BattleConfig) (now : Nat) (b : Battle) : Prop :=
  Relation.ReflTransGen Step (mkBattle c now) b

/-- The scheduler invariant: transcript length equals the turn counter, the
speaker index is the turn counter modulo the agent count, and the k-th
transcript record carries turn index k and speaker index k mod N. -/
def Inv (b : Battle) : Prop :=
  b.history.length = b.turn ∧
  b.currentSpeaker = b.turn % b.agents.length ∧
  b.history.map (fun e => (e.turn, e.speakerIndex)) =
    (List.range b.turn).map (fun k => (k, k % b.agents.length))

lemma complete_fst (b : Battle) (now : Nat) :
    (b.complete now).1.history = b.history ∧ (b.complete now).1.turn = b.turn ∧
    (b.complete now).1.currentSpeaker = b.currentSpeaker ∧
    (b.complete now).1.agents.length = b.agents.length ∧
    (b.complete now).1.status = Status.complete := by
  refine ⟨rfl, rfl, rfl, ?_, rfl⟩
  simp [Battle.complete]

lemma Inv_complete (b : Battle) (now : Nat) (h : Inv b) : Inv ((b.complete now).1) := by
  obtain ⟨h1, h2, h3⟩ := h
  obtain ⟨c1, c2, c3, c4, _⟩ := complete_fst b now
  exact ⟨by rw [c1, c2, h1], by rw [c3, c2, c4, h2], by rw [c1, c2, c4, h3]⟩

lemma Inv_recordTurn (b : Battle) (r : String) (now : Nat) (h : Inv b) :
    Inv (b.recordTurn r now) := by
  obtain ⟨h1, h2, h3⟩ := h
  refine ⟨?_, ?_, ?_⟩
  · simp [Battle.recordTurn, h1]
  · simp only [Battle.recordTurn]
    rw [h2]
    exact Nat.mod_add_mod b.turn b.agents.length 1
  · simp [Battle.recordTurn, Battle.turnRecord, List.range_succ, h3, h2]

lemma runTurn_battle_cases (b : Battle) (oracle : Oracle) (now : Nat) (input : String) :
    (b.runTurn oracle now input).battle = b ∨
    (b.runTurn oracle now input).battle = (b.complete now).1 ∨
    ∃ response,
      (b.runTurn oracle now input).battle = b.recordTurn response now ∨
      (b.runTurn oracle now input).battle = ((b.recordTurn response now).complete now).1 := by
  unfold Battle.runTurn
  split
  · exact Or.inl rfl
  split
  · exact Or.inr (Or.inl rfl)
  rcases oracle (b.buildMessages b.currentSpeaker input)
      (b.agents.getD b.currentSpeaker default).buildSystemPrompt with msg | response
  · exact Or.inl rfl
  refine Or.inr (Or.inr ⟨response, ?_⟩)
  dsimp only
  split
  · exact Or.inl rfl
  split
  · exact Or.inr rfl
  · exact Or.inl rfl

lemma Inv_runTurn (b : Battle) (oracle : Oracle) (now : Nat) (input : String)
    (h : Inv b) : Inv ((b.runTurn oracle now input).battle) := by
  rcases runTurn_battle_cases b oracle now input with hc | hc | ⟨response, hc | hc⟩ <;> rw [hc]
  · exact h
  · exact Inv_complete b now h
  · exact Inv_recordTurn b response now h
  · exact Inv_complete _ now (Inv_recordTurn b response now h)

lemma Inv_start (b : Battle) (oracle : Oracle) (now : Nat) (h : Inv b) :
    Inv ((b.start oracle now).battle) :=
  Inv_runTurn (b.startingState now) oracle now _ h

lemma Inv_initializeAgents (b : Battle) (disk : String → Option Brain) (h : Inv b) :
    Inv (b.initializeAgents disk) := by
  obtain ⟨h1, h2, h3⟩ := h
  refine ⟨h1, ?_, ?_⟩ <;> simp [Battle.initializeAgents, h2, h3]

lemma resume_battle_cases (b : Battle) :
    (b.resume).battle = b ∨ (b.resume).battle = { b with status := .running } := by
  unfold Battle.resume
  split
  · exact Or.inl rfl
  · exact Or.inr rfl

lemma Inv_step {b b2 : Battle} (h : Step b b2) (hInv : Inv b) : Inv b2 := by
  cases h with
  | initStep disk => exact Inv_initializeAgents b disk hInv
  | startStep oracle now => exact Inv_start b oracle now hInv
  | runStep oracle now input => exact Inv_runTurn b oracle now input hInv
  | pauseStep => exact hInv
  | resumeStep =>
    rcases resume_battle_cases b with hc | hc <;> rw [hc]
    · exact hInv
    · exact hInv
  | completeStep now => exact Inv_complete b now hInv

lemma Inv_mkBattle (c : BattleConfig) (now : Nat) : Inv (mkBattle c now) := by
  refine ⟨rfl, ?_, rfl⟩
  simp [mkBattle]

lemma Inv_reachable {c : BattleConfig} {now : Nat} {b : Battle}
    (h : Reachable c now b) : Inv b := by
  induction h with
  | refl => exact Inv_mkBattle c now
  | tail hsteps hstep ih => exact Inv_step hstep ih

lemma runTurn_history_append (b : Battle) (oracle : Oracle) (now : Nat) (input : String) :
    ∃ t, (b.runTurn oracle now input).battle.history = b.history ++ t ∧
      ∀ e ∈ t, e.turn = b.turn ∧ e.speakerIndex = b.currentSpeaker := by
  rcases runTurn_battle_cases b oracle now input with hc | hc | ⟨response, hc | hc⟩ <;> rw [hc]
  · exact ⟨[], by simp⟩
  · exact ⟨[], by simp [(complete_fst b now).1]⟩
  · exact ⟨[b.turnRecord response now], by simp [Battle.recordTurn, Battle.turnRecord]⟩
  · refine ⟨[b.turnRecord response now], ?_⟩
    rw [(complete_fst _ now).1]
    simp [Battle.recordTurn, Battle.turnRecord]

lemma step_history_append {b b2 : Battle} (h : Step b b2) :
    ∃ t, b2.history = b.history ++ t := by
  cases h with
  | initStep disk => exact ⟨[], by simp [Battle.initializeAgents]⟩
  | startStep oracle now =>
    obtain ⟨t, ht, _⟩ :=
      runTurn_history_append (b.startingState now) oracle now (b.startingState now).openingMessage
    exact ⟨t, ht⟩
  | runStep oracle now input =>
    obtain ⟨t, ht, _⟩ := runTurn_history_append b oracle now input
    exact ⟨t, ht⟩
  | pauseStep => exact ⟨[], by simp [Battle.pause]⟩
  | resumeStep =>
    rcases resume_battle_cases b with hc | hc <;> rw [hc] <;> exact ⟨[], by simp⟩
  | completeStep now => exact ⟨[], by rw [(complete_fst b now).1, List.append_nil]⟩

lemma recordTurn_turn_eq (b : Battle) (r : String) (now : Nat) :
    (b.recordTurn r now).turn = b.turn + 1 := rfl

lemma recordTurn_maxTurns_eq (b : Battle) (r : String) (now : Nat) :
    (b.recordTurn r now).maxTurns = b.maxTurns := rfl

lemma recordTurn_status_eq (b : Battle) (r : String) (now : Nat) :
    (b.recordTurn r now).status = b.status := rfl

lemma runTurn_not_running (b : Battle) (oracle : Oracle) (now : Nat) (input : String)
    (h : b.status ≠ .running) :
    b.runTurn oracle now input = ⟨b, [], 0, none⟩ := by
  unfold Battle.runTurn
  rw [if_pos h]

lemma runTurn_at_max (b : Battle) (oracle : Oracle) (now : Nat) (input : String)
    (hrun : b.status = .running) (hmax : b.maxTurns ≤ b.turn) :
    b.runTurn oracle now input = ⟨(b.complete now).1, (b.complete now).2, 0, none⟩ := by
  unfold Battle.runTurn
  rw [if_neg (by simp [hrun]), if_pos hmax]

lemma runTurn_provider_error (b : Battle) (oracle : Oracle) (now : Nat) (input msg : String)
    (hrun : b.status = .running) (hlt : b.turn < b.maxTurns)
    (hfail : oracle (b.buildMessages b.currentSpeaker input)
        (b.agents.getD b.currentSpeaker default).buildSystemPrompt = .error msg) :
    b.runTurn oracle now input = ⟨b, [.errorEv b.id msg], 1, none⟩ := by
  unfold Battle.runTurn
  rw [if_neg (by simp [hrun]), if_neg (by omega), hfail]

lemma runTurn_provider_ok (b : Battle) (oracle : Oracle) (now : Nat) (input response : String)
    (hrun : b.status = .running) (hlt : b.turn < b.maxTurns)
    (hok : oracle (b.buildMessages b.currentSpeaker input)
        (b.agents.getD b.currentSpeaker default).buildSystemPrompt = .ok response) :
    b.runTurn oracle now input =
      if b.turn + 1 < b.maxTurns then
        ⟨b.recordTurn response now, [.turnEv b.id (b.turnRecord response now)], 1, some response⟩
      else
        ⟨((b.recordTurn response now).complete now).1,
          .turnEv b.id (b.turnRecord response now) :: ((b.recordTurn response now).complete now).2,
          1, none⟩ := by
  unfold Battle.runTurn
  rw [if_neg (by simp [hrun]), if_neg (by omega), hok]
  dsimp only
  by_cases h2 : b.turn + 1 < b.maxTurns
  · rw [if_pos (show (b.recordTurn response now).turn < (b.recordTurn response now).maxTurns ∧
          (b.recordTurn response now).status = Status.running from ⟨h2, hrun⟩),
      if_pos h2]
  · rw [if_neg (show ¬((b.recordTurn response now).turn < (b.recordTurn response now).maxTurns ∧
          (b.recordTurn response now).status = Status.running) from fun hand => h2 hand.1),
      if_pos (show (b.recordTurn response now).maxTurns ≤ (b.recordTurn response now).turn from
        (by omega : b.maxTurns ≤ b.turn + 1)),
      if_neg h2]

/-! Concrete fixtures used by witnesses and counterexamples. -/

def demoAgentA : Agent := ⟨"Alpha", "Alpha", none, none, none, none, "m1", false⟩

def demoAgentB : Agent := ⟨"Beta", "Beta", none, none, none, none, "m2", false⟩

def demoConfig : BattleConfig :=
  ⟨some 7, [demoAgentA, demoAgentB], some "Discuss X.", false, false, some 4, some 1, none⟩

def okOracle : Oracle := fun _ _ => .ok "Hello."

def errOracle : Oracle := fun _ _ => .error "boom"

/-- Claim C4: from any freshly constructed Battle, after any sequence of
initialize, start, runTurn, pause, resume, and complete calls, the
transcript length equals the turn counter; and every further engine call
only appends to the transcript — the existing records are preserved
unchanged as a prefix, never mutated or removed. -/
theorem transcript_length_invariant_and_append_only
    (c : BattleConfig) (now0 : Nat) (b : Battle) (hb : Reachable c now0 b) :
    b.history.length = b.turn ∧
    ∀ b2, Step b b2 → ∃ t, b2.history = b.history ++ t :=
  ⟨(Inv_reachable hb).1, fun _ h2 => step_history_append h2⟩

theorem transcript_length_invariant_and_append_only_witness :
    ((mkBattle demoConfig 0).start okOracle 1).battle.history.length =
      ((mkBattle demoConfig 0).start okOracle 1).battle.turn ∧
    ∀ b2, Step ((mkBattle demoConfig 0).start okOracle 1).battle b2 →
      ∃ t, b2.history = ((mkBattle demoConfig 0).start okOracle 1).battle.history ++ t :=
  transcript_length_invariant_and_append_only demoConfig 0 _
    (Relation.ReflTransGen.tail Relation.ReflTransGen.refl
      (Step.startStep (mkBattle demoConfig 0) okOracle 1))

/-- Claim C5: in every reachable state of a Battle with at least two agents,
the current speaker index lies in [0, N), it equals the turn counter mod N,
and the k-th transcript record carries turn index k and speaker index
k mod N — rotation is plain modulo advancement starting at speaker 0. -/
theorem speaker_index_modulo_invariant
    (c : BattleConfig) (now0 : Nat) (b : Battle) (hb : Reachable c now0 b)
    (hN : 2 ≤ b.agents.length) :
    b.currentSpeaker < b.agents.length ∧
    b.currentSpeaker = b.turn % b.agents.length ∧
    b.history.map (fun e => (e.turn, e.speakerIndex)) =
      (List.range b.turn).map (fun k => (k, k % b.agents.length)) ∧
    ∀ e ∈ b.history, e.speakerIndex = e.turn % b.agents.length := by
  obtain ⟨h1, h2, h3⟩ := Inv_reachable hb
  refine ⟨?_, h2, h3, ?_⟩
  · rw [h2]
    exact Nat.mod_lt _ (by omega)
  · intro e he
    have hm : (e.turn, e.speakerIndex) ∈ b.history.map (fun x => (x.turn, x.speakerIndex)) :=
      List.mem_map_of_mem _ he
    rw [h3] at hm
    obtain ⟨k, _, hpair⟩ := List.mem_map.mp hm
    injection hpair with hk1 hk2
    rw [← hk2, ← hk1]

theorem speaker_index_modulo_invariant_witness :
    2 ≤ ((mkBattle demoConfig 0).start okOracle 1).battle.agents.length ∧
    (((mkBattle demoConfig 0).start okOracle 1).battle.currentSpeaker <
        ((mkBattle demoConfig 0).start okOracle 1).battle.agents.length ∧
      ((mkBattle demoConfig 0).start okOracle 1).battle.currentSpeaker =
        ((mkBattle demoConfig 0).start okOracle 1).battle.turn %
          ((mkBattle demoConfig 0).start okOracle 1).battle.agents.length ∧
      ((mkBattle demoConfig 0).start okOracle 1).battle.history.map
          (fun e => (e.turn, e.speakerIndex)) =
        (List.range ((mkBattle demoConfig 0).start okOracle 1).battle.turn).map
          (fun k => (k, k % ((mkBattle demoConfig 0).start okOracle 1).battle.agents.length)) ∧
      ∀ e ∈ ((mkBattle demoConfig 0).start okOracle 1).battle.history,
        e.speakerIndex =
          e.turn % ((mkBattle demoConfig 0).start okOracle 1).battle.agents.length) :=
  ⟨by decide,
    speaker_index_modulo_invariant demoConfig 0 _
      (Relation.ReflTransGen.tail Relation.ReflTransGen.refl
        (Step.startStep (mkBattle demoConfig 0) okOracle 1))
      (by decide)⟩

/-- Claim C6: when the Provider call inside runTurn fails, exactly the error
event carrying the battle id and the error message is broadcast, the battle
state is left untouched — no Turn appended, turn counter unchanged, status
still running — and nothing further is scheduled on that path. -/
theorem provider_failure_is_atomic
    (b : Battle) (oracle : Oracle) (now : Nat) (input msg : String)
    (hrun : b.status = .running) (hlt : b.turn < b.maxTurns)
    (hfail : oracle (b.buildMessages b.currentSpeaker input)
        (b.agents.getD b.currentSpeaker default).buildSystemPrompt = Except.error msg) :
    (b.runTurn oracle now input).events = [Event.errorEv b.id msg] ∧
    (b.runTurn oracle now input).battle = b ∧
    (b.runTurn oracle now input).battle.status = Status.running ∧
    (b.runTurn oracle now input).battle.turn = b.turn ∧
    (b.runTurn oracle now input).battle.history = b.history ∧
    (b.runTurn oracle now input).scheduled = none ∧
    (b.runTurn oracle now input).providerCalls = 1 := by
  rw [runTurn_provider_error b oracle now input msg hrun hlt hfail]
  exact ⟨rfl, rfl, hrun, rfl, rfl, rfl, rfl⟩

theorem provider_failure_is_atomic_witness :
    (((mkBattle demoConfig 0).startingState 1).runTurn errOracle 2 "go").events =
      [Event.errorEv 7 "boom"] ∧
    (((mkBattle demoConfig 0).startingState 1).runTurn errOracle 2 "go").battle =
      (mkBattle demoConfig 0).startingState 1 ∧
    (((mkBattle demoConfig 0).startingState 1).runTurn errOracle 2 "go").battle.status =
      Status.running ∧
    (((mkBattle demoConfig 0).startingState 1).runTurn errOracle 2 "go").battle.turn =
      ((mkBattle demoConfig 0).startingState 1).turn ∧
    (((mkBattle demoConfig 0).startingState 1).runTurn errOracle 2 "go").battle.history =
      ((mkBattle demoConfig 0).startingState 1).history ∧
    (((mkBattle demoConfig 0).startingState 1).runTurn errOracle 2 "go").scheduled = none ∧
    (((mkBattle demoConfig 0).startingState 1).runTurn errOracle 2 "go").providerCalls = 1 := by
  have h := provider_failure_is_atomic ((mkBattle demoConfig 0).startingState 1)
    errOracle 2 "go" "boom" rfl (by decide) rfl
  exact ⟨h.1, h.2.1, h.2.2.1, h.2.2.2.1, h.2.2.2.2.1, h.2.2.2.2.2.1, h.2.2.2.2.2.2⟩

def cfgZeroTurns : BattleConfig :=
  ⟨some 7, [demoAgentA, demoAgentB], some "Discuss X.", false, false, some 0, some 1, none⟩

/-- Claim C1 counterexample: a Battle constructed with maxTurns = 0 actually
receives the default maxTurns 20 (0 is falsy in the constructor), so start()
makes a Provider call, produces a Turn, and stays running — it does not move
directly to complete with an empty transcript. -/
theorem battle_constructed_with_zero_maxTurns_cex :
    (mkBattle cfgZeroTurns 0).maxTurns = 20 ∧
    ((mkBattle cfgZeroTurns 0).start okOracle 1).providerCalls = 1 ∧
    ((mkBattle cfgZeroTurns 0).start okOracle 1).battle.turn = 1 ∧
    ((mkBattle cfgZeroTurns 0).start okOracle 1).battle.history ≠ [] ∧
    ((mkBattle cfgZeroTurns 0).start okOracle 1).battle.status = Status.running :=
  ⟨rfl, rfl, rfl, by decide, rfl⟩

def zeroTurnsBattle : Battle := { mkBattle demoConfig 0 with maxTurns := 0 }

/-- Claim C1 amended: the constructor never yields a maxTurns field of 0 (a
configured 0 falls back to the default 20); for any battle whose maxTurns
field is 0, start() transitions to complete without producing a Turn,
without a Provider call, leaving turn counter and transcript unchanged and
scheduling nothing. -/
theorem maxTurns_zero_field_start_completes
    (b : Battle) (oracle : Oracle) (now : Nat) (hmax : b.maxTurns = 0) :
    (∀ c now0, (mkBattle c now0).maxTurns ≠ 0) ∧
    (b.start oracle now).battle.status = Status.complete ∧
    (b.start oracle now).battle.turn = b.turn ∧
    (b.start oracle now).battle.history = b.history ∧
    (b.start oracle now).providerCalls = 0 ∧
    (b.start oracle now).scheduled = none := by
  have hrt := runTurn_at_max (b.startingState now) oracle now
    ((b.startingState now).openingMessage) rfl
    (show (b.startingState now).maxTurns ≤ (b.startingState now).turn from
      (by omega : b.maxTurns ≤ b.turn))
  refine ⟨?_, ?_, ?_, ?_, ?_, ?_⟩
  · intro c now0
    show orDefaultNat c.maxTurns 20 ≠ 0
    unfold orDefaultNat
    cases c.maxTurns with
    | none => decide
    | some n =>
      dsimp only
      by_cases hn : n = 0
      · rw [if_pos hn]; decide
      · rw [if_neg hn]; exact hn
  · show ((b.startingState now).runTurn oracle now
        (b.startingState now).openingMessage).battle.status = Status.complete
    rw [hrt]
    exact (complete_fst _ now).2.2.2.2
  · show ((b.startingState now).runTurn oracle now
        (b.startingState now).openingMessage).battle.turn = b.turn
    rw [hrt]
    exact (complete_fst _ now).2.1
  · show ((b.startingState now).runTurn oracle now
        (b.startingState now).openingMessage).battle.history = b.history
    rw [hrt]
    exact (complete_fst _ now).1
  · show ((b.startingState now).runTurn oracle now
        (b.startingState now).openingMessage).providerCalls = 0
    rw [hrt]
  · show ((b.startingState now).runTurn oracle now
        (b.startingState now).openingMessage).scheduled = none
    rw [hrt]

theorem maxTurns_zero_field_start_completes_witness :
    zeroTurnsBattle.maxTurns = 0 ∧
    ((∀ c now0, (mkBattle c now0).maxTurns ≠ 0) ∧
      (zeroTurnsBattle.start okOracle 1).battle.status = Status.complete ∧
      (zeroTurnsBattle.start okOracle 1).battle.turn = zeroTurnsBattle.turn ∧
      (zeroTurnsBattle.start okOracle 1).battle.history = zeroTurnsBattle.history ∧
      (zeroTurnsBattle.start okOracle 1).providerCalls = 0 ∧
      (zeroTurnsBattle.start okOracle 1).scheduled = none) :=
  ⟨rfl, maxTurns_zero_field_start_completes zeroTurnsBattle okOracle 1 rfl⟩

def agentWithDirective : Agent :=
  ⟨"Alpha", "Alpha", none, none, none, some "Indiv directive.", "m1", false⟩

def cfgBothPrompts : BattleConfig :=
  ⟨some 7, [agentWithDirective, demoAgentB], some "Shared topic.", true, true, some 4, some 1, none⟩

/-- Claim C2 counterexample: with both a shared prompt and an individual
directive for speaker 0 set (battle-level anonymity on, so no names are
appended), the opening message is the individual directive, not the shared
prompt — the code gives the individual directive precedence. -/
theorem opening_precedence_cex :
    (mkBattle cfgBothPrompts 0).prompt = some "Shared topic." ∧
    (mkBattle cfgBothPrompts 0).anonymousMode = true ∧
    (mkBattle cfgBothPrompts 0).openingMessage = "Indiv directive." ∧
    "Indiv directive." ≠ "Shared topic." :=
  ⟨rfl, rfl, rfl, by decide⟩

/-- Claim C2 amended: start() computes the opening for speaker 0 with the
precedence: speaker 0's individual directive if set, else the shared prompt,
else the default token "Begin."; unless battle-level anonymity is set, the
other participants' names are appended; start() invokes the turn loop with
that opening content. -/
theorem opening_message_individual_over_shared (b : Battle) :
    ((b.agents.getD 0 default).prompt = none → b.prompt = none →
      b.openingBase = "Begin.") ∧
    (∀ p, (b.agents.getD 0 default).prompt = some p → b.openingBase = p) ∧
    (∀ q, (b.agents.getD 0 default).prompt = none → b.prompt = some q →
      b.openingBase = q) ∧
    (b.anonymousMode = true → b.openingMessage = b.openingBase) ∧
    (b.anonymousMode = false →
      b.openingMessage = b.openingBase ++ "\n\nYou are starting. Other participant(s): " ++
        String.intercalate ", " ((b.agents.drop 1).map (fun a => a.name))) ∧
    ∀ oracle now, (b.start oracle now).battle =
      ((b.startingState now).runTurn oracle now b.openingMessage).battle := by
  refine ⟨?_, ?_, ?_, ?_, ?_, fun _ _ => rfl⟩
  · intro h1 h2
    unfold Battle.openingBase
    rw [h1, h2]
  · intro p hp
    unfold Battle.openingBase
    rw [hp]
  · intro q h1 h2
    unfold Battle.openingBase
    rw [h1, h2]
  · intro ha
    simp [Battle.openingMessage, ha]
  · intro ha
    simp [Battle.openingMessage, ha]

theorem opening_message_individual_over_shared_witness :
    ((mkBattle cfgBothPrompts 0).agents.getD 0 default).prompt = some "Indiv directive." ∧
    (mkBattle cfgBothPrompts 0).openingBase = "Indiv directive." :=
  ⟨rfl, (opening_message_individual_over_shared (mkBattle cfgBothPrompts 0)).2.1
    "Indiv directive." rfl⟩

def completedBattle : Battle := { mkBattle demoConfig 0 with status := Status.complete }

/-- Claim C3 counterexample: pause() carries no status guard — invoked on a
complete battle it sets the status to paused, so a complete Battle does
leave the complete state, contradicting the claimed transition table. -/
theorem pause_from_complete_cex :
    completedBattle.status = Status.complete ∧
    (completedBattle.pause).1.status = Status.paused ∧
    Status.paused ≠ Status.complete :=
  ⟨rfl, rfl, by decide⟩

/-- Claim C3 amended: pause() unconditionally sets the status to paused from
any state, including pending and complete — a complete battle therefore can
leave complete via pause(); runTurn() is a no-op unless running and
resume() is a no-op unless paused, so those two calls never move a battle
out of complete. -/
theorem pause_unconditional_and_terminal_guards (b : Battle) :
    (b.pause).1.status = Status.paused ∧
    (b.status = Status.complete →
      (∀ oracle now input, b.runTurn oracle now input = ⟨b, [], 0, none⟩) ∧
      b.resume = ⟨b, [], none⟩) := by
  refine ⟨rfl, fun hc => ⟨fun oracle now input =>
    runTurn_not_running b oracle now input (by rw [hc]; decide), ?_⟩⟩
  unfold Battle.resume
  rw [if_pos (show b.status ≠ Status.paused from by rw [hc]; decide)]

theorem pause_unconditional_and_terminal_guards_witness :
    completedBattle.status = Status.complete ∧
    (completedBattle.pause).1.status = Status.paused ∧
    ((∀ oracle now input,
        completedBattle.runTurn oracle now input = ⟨completedBattle, [], 0, none⟩) ∧
      completedBattle.resume = ⟨completedBattle, [], none⟩) :=
  ⟨rfl, (pause_unconditional_and_terminal_guards completedBattle).1,
    (pause_unconditional_and_terminal_guards completedBattle).2 rfl⟩

/-- Claim C7: for a Brain holding 45 knowledge entries the rendered
knowledge section contains exactly the first 30 entries; for a Brain
holding 23 episodic memories the rendered memory section contains exactly
the most recent 10 in their original insertion order; and
buildSystemPrompt returns none when every section is absent. -/
theorem system_prompt_sections_bounds
    (cs : List KEntry) (hcs : cs.length = 45)
    (ms : List Memory) (hms : ms.length = 23)
    (a : Agent) (ha : a.anonymous = true) (hsoul : a.soul = none) (hbrain : a.brain = none) :
    knowledgeSection (some cs) =
      "## Your Knowledge\n" ++ String.join ((cs.take 30).map renderConcept) ++ "\n" ∧
    (cs.take 30).length = 30 ∧
    cs.take 30 ++ cs.drop 30 = cs ∧
    memorySection (some ms) =
      "## Recent Memories\n" ++ String.join ((ms.drop 13).map renderMemory) ∧
    (ms.drop 13).length = 10 ∧
    ms.take 13 ++ ms.drop 13 = ms ∧
    a.buildSystemPrompt = none := by
  refine ⟨?_, ?_, ?_, ?_, ?_, ?_, ?_⟩
  · unfold knowledgeSection
    dsimp only
    rw [if_pos (by omega)]
  · simp [hcs]
  · exact List.take_append_drop 30 cs
  · unfold memorySection
    dsimp only
    rw [if_pos (by omega), hms]
  · simp [hms]
  · exact List.take_append_drop 13 ms
  · simp [Agent.buildSystemPrompt, ha, hsoul, hbrain]

def demoConcept : KEntry := ⟨"k", some ⟨some "n", some "d"⟩⟩

def demoMemoryEntry : Memory := ⟨"mk", .str "mv", 0⟩

def anonAgent : Agent := ⟨"Anon", "Anon", none, none, none, none, "m", true⟩

theorem system_prompt_sections_bounds_witness :
    (List.replicate 45 demoConcept).length = 45 ∧
    (List.replicate 23 demoMemoryEntry).length = 23 ∧
    (knowledgeSection (some (List.replicate 45 demoConcept)) =
        "## Your Knowledge\n" ++
          String.join (((List.replicate 45 demoConcept).take 30).map renderConcept) ++ "\n" ∧
      ((List.replicate 45 demoConcept).take 30).length = 30 ∧
      (List.replicate 45 demoConcept).take 30 ++ (List.replicate 45 demoConcept).drop 30 =
        List.replicate 45 demoConcept ∧
      memorySection (some (List.replicate 23 demoMemoryEntry)) =
        "## Recent Memories\n" ++
          String.join (((List.replicate 23 demoMemoryEntry).drop 13).map renderMemory) ∧
      ((List.replicate 23 demoMemoryEntry).drop 13).length = 10 ∧
      (List.replicate 23 demoMemoryEntry).take 13 ++ (List.replicate 23 demoMemoryEntry).drop 13 =
        List.replicate 23 demoMemoryEntry ∧
      anonAgent.buildSystemPrompt = none) :=
  ⟨by simp, by simp,
    system_prompt_sections_bounds _ (by simp) _ (by simp) anonAgent rfl rfl rfl⟩

/-- Claim C8: on a paused battle with a non-empty transcript, resume() sets
the status to running, leaves the transcript and turn counter untouched
(no duplicate Turn for the paused position, the last turn is not re-run),
emits the resumed event, and schedules the turn loop on the content of the
most recent transcript entry; any turn the re-invoked loop then appends
carries the current turn counter as its index; resume() is a no-op when the
status is not paused. -/
theorem resume_reissues_last_transcript_content
    (b : Battle) (hp : b.status = Status.paused) (hne : b.history ≠ []) :
    (b.resume).battle.status = Status.running ∧
    (b.resume).battle.history = b.history ∧
    (b.resume).battle.turn = b.turn ∧
    (b.resume).events = [Event.resumedEv b.id] ∧
    (∃ e, b.history.getLast? = some e ∧ (b.resume).scheduled = some e.content) ∧
    (∀ oracle now input, ∃ t,
      ((b.resume).battle.runTurn oracle now input).battle.history = b.history ++ t ∧
      ∀ x ∈ t, x.turn = b.turn) ∧
    (∀ b2 : Battle, b2.status ≠ Status.paused → b2.resume = ⟨b2, [], none⟩) := by
  have hres : b.resume =
      ⟨{ b with status := Status.running }, [.resumedEv b.id],
        (b.history.getLast?).map (fun e => e.content)⟩ := by
    unfold Battle.resume
    rw [if_neg (by simp [hp])]
  refine ⟨by rw [hres], by rw [hres], by rw [hres], by rw [hres], ?_, ?_, ?_⟩
  · rcases hgl : b.history.getLast? with _ | e
    · exact absurd (List.getLast?_eq_none_iff.mp hgl) hne
    · exact ⟨e, rfl, by rw [hres, hgl]; rfl⟩
  · intro oracle now input
    rw [hres]
    obtain ⟨t, ht, hturns⟩ :=
      runTurn_history_append { b with status := Status.running } oracle now input
    exact ⟨t, ht, fun x hx => (hturns x hx).1⟩
  · intro b2 h2
    unfold Battle.resume
    rw [if_pos h2]

def pausedBattle : Battle := ((((mkBattle demoConfig 0).start okOracle 1).battle).pause).1

theorem resume_reissues_last_transcript_content_witness :
    pausedBattle.status = Status.paused ∧
    pausedBattle.history ≠ [] ∧
    ((pausedBattle.resume).battle.status = Status.running ∧
      (pausedBattle.resume).battle.history = pausedBattle.history ∧
      (pausedBattle.resume).battle.turn = pausedBattle.turn ∧
      (pausedBattle.resume).events = [Event.resumedEv pausedBattle.id] ∧
      (∃ e, pausedBattle.history.getLast? = some e ∧
        (pausedBattle.resume).scheduled = some e.content) ∧
      (∀ oracle now input, ∃ t,
        ((pausedBattle.resume).battle.runTurn oracle now input).battle.history =
          pausedBattle.history ++ t ∧
        ∀ x ∈ t, x.turn = pausedBattle.turn) ∧
      (∀ b2 : Battle, b2.status ≠ Status.paused → b2.resume = ⟨b2, [], none⟩)) :=
  ⟨rfl, by decide, resume_reissues_last_transcript_content pausedBattle rfl (by decide)⟩

lemma wordLimitTag_append_ne_empty (w : Nat) (s : String) : wordLimitTag w ++ s ≠ "" := by
  intro h
  have hlen := congrArg String.length h
  rw [wordLimitTag] at hlen
  simp only [String.length_append] at hlen
  have h1 : ("[" : String).length = 1 := rfl
  have h2 : (" words max.] " : String).length = 13 := rfl
  have h0 : ("" : String).length = 0 := rfl
  omega

/-- Claim C9: with a max-words value configured, the outgoing message built
by buildMessages on every turn (first or later — the first-turn preamble is
arbitrary here) carries the explicit word-limit instruction prefixed to the
input; with no max-words value no instruction is added; and the
constructor maps a falsy or absent config max-words to none, disabling the
constraint. -/
theorem max_words_tag_on_every_outgoing_message
    (b : Battle) (i : Nat) (input : String) :
    (∀ w, b.maxWords = some w → input ≠ "" →
      b.buildMessages i input =
        b.history.map (renderEntry i) ++
          [⟨Role.user, firstTurnPreamble b i ++ (wordLimitTag w ++ input)⟩]) ∧
    (b.maxWords = none →
      b.buildMessages i input =
        if input ≠ "" then
          b.history.map (renderEntry i) ++ [⟨Role.user, firstTurnPreamble b i ++ input⟩]
        else b.history.map (renderEntry i)) ∧
    (∀ c now0, (c.maxWords = some 0 ∨ c.maxWords = none) →
      (mkBattle c now0).maxWords = none) := by
  refine ⟨?_, ?_, ?_⟩
  · intro w hw hi
    unfold Battle.buildMessages
    rw [hw]
    dsimp only
    rw [if_pos hi, if_pos (wordLimitTag_append_ne_empty w input)]
  · intro hw
    unfold Battle.buildMessages
    rw [hw]
  · intro c now0 hc
    show orNullNat c.maxWords = none
    rcases hc with hc | hc <;> rw [hc] <;> rfl

def maxWordsBattle : Battle := { mkBattle demoConfig 0 with maxWords := some 50 }

theorem max_words_tag_on_every_outgoing_message_witness :
    maxWordsBattle.maxWords = some 50 ∧
    ("go" : String) ≠ "" ∧
    maxWordsBattle.buildMessages 0 "go" =
      maxWordsBattle.history.map (renderEntry 0) ++
        [⟨Role.user, firstTurnPreamble maxWordsBattle 0 ++ (wordLimitTag 50 ++ "go")⟩] :=
  ⟨rfl, by decide,
    (max_words_tag_on_every_outgoing_message maxWordsBattle 0 "go").1 50 rfl (by decide)⟩

lemma buildMessages_last_entry (b : Battle) (i : Nat) (input : String) (hi : input ≠ "") :
    ∃ pre, b.buildMessages i input =
      b.history.map (renderEntry i) ++ [⟨Role.user, pre ++ input⟩] := by
  unfold Battle.buildMessages
  cases hmw : b.maxWords with
  | none =>
    refine ⟨firstTurnPreamble b i, ?_⟩
    dsimp only
    rw [if_pos hi]
  | some w =>
    refine ⟨firstTurnPreamble b i ++ wordLimitTag w, ?_⟩
    dsimp only
    rw [if_pos hi, if_pos (wordLimitTag_append_ne_empty w input), String.append_assoc]

lemma succ_mod_ne (N s : Nat) (hN : 2 ≤ N) (hs : s < N) : (s + 1) % N ≠ s := by
  by_cases h : s + 1 < N
  · rw [Nat.mod_eq_of_lt h]
    omega
  · have hsN : s + 1 = N := by omega
    rw [hsN, Nat.mod_self]
    omega

/-- Claim C10: after an accepted Turn, runTurn schedules the next turn with
the just-produced response as input while that same response is already the
last transcript entry — so the message list built for the responding agent
contains the previous Turn's content twice: once as the final rendered
transcript entry in the other (user) role, and once more inside the
separately appended last message. -/
theorem previous_content_appears_twice_in_next_messages
    (b : Battle) (oracle : Oracle) (now : Nat) (input response : String)
    (hrun : b.status = Status.running) (hN : 2 ≤ b.agents.length)
    (hs : b.currentSpeaker < b.agents.length)
    (hlt : b.turn + 1 < b.maxTurns)
    (hok : oracle (b.buildMessages b.currentSpeaker input)
        (b.agents.getD b.currentSpeaker default).buildSystemPrompt = Except.ok response)
    (hresp : response ≠ "") :
    (b.runTurn oracle now input).scheduled = some response ∧
    ∃ ms pre,
      (b.runTurn oracle now input).battle.buildMessages
          (b.runTurn oracle now input).battle.currentSpeaker response =
        ms ++ [⟨Role.user, response⟩, ⟨Role.user, pre ++ response⟩] := by
  have hrt := runTurn_provider_ok b oracle now input response hrun (by omega) hok
  rw [if_pos hlt] at hrt
  rw [hrt]
  refine ⟨rfl, ?_⟩
  obtain ⟨pre, hbm⟩ := buildMessages_last_entry (b.recordTurn response now)
    ((b.currentSpeaker + 1) % b.agents.length) response hresp
  refine ⟨b.history.map (renderEntry ((b.currentSpeaker + 1) % b.agents.length)), pre, ?_⟩
  show (b.recordTurn response now).buildMessages
      ((b.recordTurn response now).currentSpeaker) response = _
  rw [show (b.recordTurn response now).currentSpeaker =
      (b.currentSpeaker + 1) % b.agents.length from rfl, hbm,
    show (b.recordTurn response now).history =
      b.history ++ [b.turnRecord response now] from rfl,
    List.map_append]
  have hcs : ¬(b.currentSpeaker = (b.currentSpeaker + 1) % b.agents.length) :=
    fun h => succ_mod_ne b.agents.length b.currentSpeaker hN hs h.symm
  rw [show (([b.turnRecord response now] : List Turn).map
      (renderEntry ((b.currentSpeaker + 1) % b.agents.length))) =
      [⟨Role.user, response⟩] from by
    unfold renderEntry Battle.turnRecord
    dsimp only [List.map_cons, List.map_nil]
    rw [if_neg hcs]]
  rw [List.append_assoc]
  rfl

theorem previous_content_appears_twice_in_next_messages_witness :
    (((mkBattle demoConfig 0).startingState 1).runTurn okOracle 2 "go").scheduled =
      some "Hello." ∧
    (∃ ms pre,
      (((mkBattle demoConfig 0).startingState 1).runTurn okOracle 2 "go").battle.buildMessages
          ((((mkBattle demoConfig 0).startingState 1).runTurn okOracle 2 "go").battle.currentSpeaker)
          "Hello." =
        ms ++ [⟨Role.user, "Hello."⟩, ⟨Role.user, pre ++ "Hello."⟩]) :=
  previous_content_appears_twice_in_next_messages
    ((mkBattle demoConfig 0).startingState 1) okOracle 2 "go" "Hello."
    rfl (by decide) (by decide) (by decide) rfl (by decide)

end PhoenixArena
